import Mathlib

/-!
Verification of the autocomplete widget in `src/static/js/app.js` of the
Book-Recommandation-System repository.

Strings are embedded as `List Char` (`Str`).  The DOM / event-loop side
effects of the script are embedded as explicit state passing:
`WidgetState` holds the observable widget state (the bound input's value,
the `<li>` rows of the `#suggestions` list, the `show` class, and the
`activeIndex` variable), and `LoopState` adds the debounce timer, the
`AbortController` bookkeeping, and the history of issued network requests.
The host runtime processes one event handler (and the microtask
continuations of an already-settled fetch) to completion before the next
macrotask, so each handler is a single atomic step `stepEv`.
-/

namespace BookRec

abbrev Str := List Char

/-- The double-quote character, written via its code point. -/
def quoteChar : Char := Char.ofNat 34

/-- The single-quote character, written via its code point. -/
def aposChar : Char := Char.ofNat 39

/-- One global single-character replacement, as performed by each
`String.prototype.replace(/c/g, rep)` step in `escapeHtml`
(app.js lines 9-15). -/
def replaceChar (c : Char) (rep : Str) : Str → Str
  | [] => []
  | x :: xs => (if x = c then rep else [x]) ++ replaceChar c rep xs

/-- app.js lines 9-15: `escapeHtml` chains five global replaces, in source
order `&`, `<`, `>`, `"`, `'`. -/
def escapeHtml (value : Str) : Str :=
  replaceChar aposChar ['&', '#', '0', '3', '9', ';']
    (replaceChar quoteChar ['&', 'q', 'u', 'o', 't', ';']
      (replaceChar '>' ['&', 'g', 't', ';']
        (replaceChar '<' ['&', 'l', 't', ';']
          (replaceChar '&' ['&', 'a', 'm', 'p', ';'] value))))

/-- Per-character escaping map, written from the spec's words: exactly the
five HTML-significant characters are replaced by their entity forms, every
other character is kept.  Used to characterise `escapeHtml`. -/
def escChar (c : Char) : Str :=
  if c = '&' then ['&', 'a', 'm', 'p', ';']
  else if c = '<' then ['&', 'l', 't', ';']
  else if c = '>' then ['&', 'g', 't', ';']
  else if c = quoteChar then ['&', 'q', 'u', 'o', 't', ';']
  else if c = aposChar then ['&', '#', '0', '3', '9', ';']
  else [c]

/-- Modelled from the spec: the browser's HTML parsing that turns a rendered
row's markup back into its `textContent`, decoding the five entities that
`escapeHtml` produces.  This decoding is performed by the host browser, not
by code of this repository. -/
def unescapeHtml : Str → Str
  | [] => []
  | c :: s =>
    if c = '&' then
      if s.take 4 = ['a', 'm', 'p', ';'] then '&' :: unescapeHtml (s.drop 4)
      else if s.take 3 = ['l', 't', ';'] then '<' :: unescapeHtml (s.drop 3)
      else if s.take 3 = ['g', 't', ';'] then '>' :: unescapeHtml (s.drop 3)
      else if s.take 5 = ['q', 'u', 'o', 't', ';'] then quoteChar :: unescapeHtml (s.drop 5)
      else if s.take 5 = ['#', '0', '3', '9', ';'] then aposChar :: unescapeHtml (s.drop 5)
      else c :: unescapeHtml s
    else c :: unescapeHtml s
termination_by s => s.length
decreasing_by all_goals (simp [List.length_drop]; try omega)

/-- `textContent` of a rendered `<li>` row whose inner HTML is `row`. -/
def textContent (row : Str) : Str := unescapeHtml row

/-- Observable widget state: the input's `value`, the rendered rows of the
`#suggestions` list (each row's escaped inner HTML; the `<li data-index=…>`
wrapper is elided, `textContent` recovers the visible text), the `show`
class on the list, and the `activeIndex` variable (app.js line 17). -/
structure WidgetState where
  inputValue : Str
  items : List Str
  showClass : Bool
  activeIndex : Int
deriving DecidableEq, Repr

/-- app.js lines 21-25: `clearSuggestions` empties the list, drops the
`show` class and resets `activeIndex` to `-1`. -/
def clearSuggestions (st : WidgetState) : WidgetState :=
  { st with items := [], showClass := false, activeIndex := -1 }

/-- app.js lines 27-39: `renderSuggestions` clears on an empty list,
otherwise fills the rows with the escaped book titles, adds the `show`
class and resets `activeIndex` to `-1`.  (The `Array.isArray` test is
subsumed by the typed embedding.) -/
def renderSuggestions (books : List Str) (st : WidgetState) : WidgetState :=
  if books.length = 0 then clearSuggestions st
  else { st with items := books.map escapeHtml, showClass := true, activeIndex := -1 }

/-- JavaScript `s || ""` on a string: the empty string is falsy. -/
def jsOrEmpty (s : Str) : Str := if s = [] then [] else s

inductive Key where
  | arrowDown
  | arrowUp
  | enter
  | escape
  | other
deriving DecidableEq, Repr

/-- app.js lines 103-133: the `keydown` listener.  Returns the new widget
state and whether `event.preventDefault()` was invoked.  `%` on the
(possibly negative) index is JavaScript's truncating remainder, `Int.tmod`;
`items[activeIndex]` with an in-range index is `List.getD`. -/
def keydown (key : Key) (st : WidgetState) : WidgetState × Bool :=
  let items := st.items
  if items.length = 0 then (st, false)
  else
    match key with
    | .arrowDown =>
        ({ st with activeIndex := (st.activeIndex + 1).tmod (items.length : Int) }, true)
    | .arrowUp =>
        ({ st with activeIndex := (st.activeIndex - 1 + (items.length : Int)).tmod (items.length : Int) }, true)
    | .enter =>
        if 0 ≤ st.activeIndex then
          let text := jsOrEmpty (textContent (items.getD st.activeIndex.toNat []))
          (clearSuggestions { st with inputValue := text }, true)
        else (st, false)
    | .escape => (clearSuggestions st, false)
    | .other => (st, false)

/-- app.js lines 135-139: the document `click` listener clears the
suggestions unless `event.target.closest(".recommend-form")` finds the
owning form container. -/
def documentClick (insideRecommendForm : Bool) (st : WidgetState) : WidgetState :=
  if insideRecommendForm then st else clearSuggestions st

/-- A settled successful HTTP response as seen by `fetchSuggestions`:
its `ok` flag and the optional `books` field of the parsed JSON body. -/
structure JsonResponse where
  ok : Bool
  books : Option (List Str)
deriving DecidableEq, Repr

/-- app.js lines 63-69: the response handling of `fetchSuggestions` — a
non-`ok` response yields `[]`, otherwise `payload.books || []`. -/
def fetchSuggestionsResult (resp : JsonResponse) : List Str :=
  if !resp.ok then [] else resp.books.getD []

/-- app.js lines 1-7: the IIFE looks up the two elements and returns
before installing any listener or defining any state when either is
missing; `none` models that total no-op. -/
def initWidget (inputPresent suggestionsListPresent : Bool) : Option WidgetState :=
  if !inputPresent || !suggestionsListPresent then none
  else some { inputValue := [], items := [], showClass := false, activeIndex := -1 }

/-- JavaScript `String.prototype.trim` on the embedded strings. -/
def trim (s : Str) : Str :=
  ((s.dropWhile Char.isWhitespace).reverse.dropWhile Char.isWhitespace).reverse

/-- Event-loop state: the widget, the armed debounce timer (with the
trimmed query its callback captured), the id of the current
`AbortController`, the ids already aborted, the issued requests
(most recent first, with their queries), the ids whose fetch has settled,
and the fresh-id counter. -/
structure LoopState where
  widget : WidgetState
  timer : Option Str
  controller : Option Nat
  aborted : List Nat
  issued : List (Nat × Str)
  resolved : List Nat
  nextId : Nat
deriving DecidableEq, Repr

def initLoop : LoopState :=
  { widget := { inputValue := [], items := [], showClass := false, activeIndex := -1 }
    timer := none
    controller := none
    aborted := []
    issued := []
    resolved := []
    nextId := 0 }

/-- External events the loop can process: an `input` event carrying the
input's new value, the debounce timer firing, a pending fetch settling
(successfully with a response, or with an error), a keydown, a click. -/
inductive Event where
  | inputEv (value : Str)
  | fireTimer
  | respond (id : Nat) (resp : JsonResponse)
  | respondError (id : Nat)
  | keyEv (k : Key)
  | clickEv (insideForm : Bool)
deriving Repr

/-- One atomic handler run.
`inputEv` (app.js lines 72-91): trim, clear-and-return on a short query
(the armed timer is left untouched), otherwise `clearTimeout` the old
timer and arm a new one capturing the query.
`fireTimer` (lines 81-90 callback and 51-63): the callback synchronously
enters `fetchSuggestions`, which aborts the previous controller, creates a
fresh one and issues the network request, then suspends at `await fetch`.
`respond`/`respondError` (lines 63-69 and 82-89): a settled fetch runs its
continuation; an aborted request settles only as an `AbortError`, which
the `catch` silently drops, so only the non-aborted branch renders (or, on
a genuine error, clears). -/
def stepEv (e : Event) (s : LoopState) : LoopState :=
  match e with
  | .inputEv v =>
      let st := { s.widget with inputValue := v }
      let q := trim v
      if q.length < 2 then { s with widget := clearSuggestions st }
      else { s with widget := st, timer := some q }
  | .fireTimer =>
      match s.timer with
      | none => s
      | some q =>
          { s with
            timer := none
            aborted := match s.controller with
                       | none => s.aborted
                       | some c => c :: s.aborted
            controller := some s.nextId
            issued := (s.nextId, q) :: s.issued
            nextId := s.nextId + 1 }
  | .respond id resp =>
      if id ∈ s.issued.map Prod.fst ∧ id ∉ s.resolved then
        if id ∈ s.aborted then { s with resolved := id :: s.resolved }
        else { s with resolved := id :: s.resolved,
                      widget := renderSuggestions (fetchSuggestionsResult resp) s.widget }
      else s
  | .respondError id =>
      if id ∈ s.issued.map Prod.fst ∧ id ∉ s.resolved then
        if id ∈ s.aborted then { s with resolved := id :: s.resolved }
        else { s with resolved := id :: s.resolved, widget := clearSuggestions s.widget }
      else s
  | .keyEv k => { s with widget := (keydown k s.widget).1 }
  | .clickEv inside => { s with widget := documentClick inside s.widget }

def runFrom (s : LoopState) : List Event → LoopState
  | [] => s
  | e :: es => runFrom (stepEv e s) es

def run (es : List Event) : LoopState := runFrom initLoop es

/-- Invariant of the cancellation mechanism: every issued id is below the
fresh counter, as is every aborted id; the current controller's id is an
issued, never-aborted id that dominates all issued ids; and every issued
id is either aborted or the current controller. -/
def Inv (s : LoopState) : Prop :=
  (∀ a ∈ s.aborted, a < s.nextId) ∧
  (∀ p ∈ s.issued, p.1 < s.nextId) ∧
  (∀ c, s.controller = some c →
    c ∈ s.issued.map Prod.fst ∧ c ∉ s.aborted ∧ ∀ p ∈ s.issued, p.1 ≤ c) ∧
  (∀ p ∈ s.issued, p.1 ∈ s.aborted ∨ s.controller = some p.1)

theorem replaceChar_append (c : Char) (rep : Str) (a b : Str) :
    replaceChar c rep (a ++ b) = replaceChar c rep a ++ replaceChar c rep b := by
  induction a with
  | nil => simp [replaceChar]
  | cons x xs ih => simp [replaceChar, ih]

theorem escapeHtml_append (a b : Str) :
    escapeHtml (a ++ b) = escapeHtml a ++ escapeHtml b := by
  simp only [escapeHtml, replaceChar_append]

theorem escapeHtml_single (c : Char) : escapeHtml [c] = escChar c := by
  by_cases h1 : c = '&'
  · subst h1; decide
  by_cases h2 : c = '<'
  · subst h2; decide
  by_cases h3 : c = '>'
  · subst h3; decide
  by_cases h4 : c = quoteChar
  · subst h4; decide
  by_cases h5 : c = aposChar
  · subst h5; decide
  simp [escapeHtml, replaceChar, escChar, h1, h2, h3, h4, h5]

theorem escapeHtml_cons (c : Char) (s : Str) :
    escapeHtml (c :: s) = escChar c ++ escapeHtml s := by
  have h := escapeHtml_append [c] s
  simpa [escapeHtml_single] using h

theorem unescape_amp (s : Str) :
    unescapeHtml ('&' :: 'a' :: 'm' :: 'p' :: ';' :: s) = '&' :: unescapeHtml s := by
  simp [unescapeHtml]

theorem unescape_lt (s : Str) :
    unescapeHtml ('&' :: 'l' :: 't' :: ';' :: s) = '<' :: unescapeHtml s := by
  simp [unescapeHtml]

theorem unescape_gt (s : Str) :
    unescapeHtml ('&' :: 'g' :: 't' :: ';' :: s) = '>' :: unescapeHtml s := by
  simp [unescapeHtml]

theorem unescape_quot (s : Str) :
    unescapeHtml ('&' :: 'q' :: 'u' :: 'o' :: 't' :: ';' :: s) = quoteChar :: unescapeHtml s := by
  simp [unescapeHtml]

theorem unescape_num039 (s : Str) :
    unescapeHtml ('&' :: '#' :: '0' :: '3' :: '9' :: ';' :: s) = aposChar :: unescapeHtml s := by
  simp [unescapeHtml]

theorem unescape_other (c : Char) (h : c ≠ '&') (s : Str) :
    unescapeHtml (c :: s) = c :: unescapeHtml s := by
  simp [unescapeHtml, h]

theorem unescape_escChar (c : Char) (s : Str) :
    unescapeHtml (escChar c ++ s) = c :: unescapeHtml s := by
  by_cases h1 : c = '&'
  · subst h1
    have hc : escChar '&' = ['&', 'a', 'm', 'p', ';'] := by decide
    rw [hc]
    exact unescape_amp s
  by_cases h2 : c = '<'
  · subst h2
    have hc : escChar '<' = ['&', 'l', 't', ';'] := by decide
    rw [hc]
    exact unescape_lt s
  by_cases h3 : c = '>'
  · subst h3
    have hc : escChar '>' = ['&', 'g', 't', ';'] := by decide
    rw [hc]
    exact unescape_gt s
  by_cases h4 : c = quoteChar
  · subst h4
    have hc : escChar quoteChar = ['&', 'q', 'u', 'o', 't', ';'] := by decide
    rw [hc]
    exact unescape_quot s
  by_cases h5 : c = aposChar
  · subst h5
    have hc : escChar aposChar = ['&', '#', '0', '3', '9', ';'] := by decide
    rw [hc]
    exact unescape_num039 s
  have hc : escChar c = [c] := by simp [escChar, h1, h2, h3, h4, h5]
  rw [hc]
  exact unescape_other c h1 s

theorem unescape_escape (s : Str) : unescapeHtml (escapeHtml s) = s := by
  induction s with
  | nil =>
      rw [show escapeHtml [] = [] from rfl]
      simp [unescapeHtml]
  | cons c cs ih => rw [escapeHtml_cons, unescape_escChar, ih]


theorem inv_initLoop : Inv initLoop := by
  refine ⟨?_, ?_, ?_, ?_⟩ <;> simp [initLoop]

theorem inv_stepEv (e : Event) (s : LoopState) (h : Inv s) : Inv (stepEv e s) := by
  obtain ⟨h1, h2, h3, h4⟩ := h
  cases e with
  | inputEv v =>
      simp only [stepEv]
      split
      · exact ⟨h1, h2, h3, h4⟩
      · exact ⟨h1, h2, h3, h4⟩
  | fireTimer =>
      simp only [stepEv]
      cases ht : s.timer with
      | none => exact ⟨h1, h2, h3, h4⟩
      | some q =>
          cases hc : s.controller with
          | none =>
              simp only [hc]
              refine ⟨?_, ?_, ?_, ?_⟩
              · intro a ha
                exact Nat.lt_succ_of_lt (h1 a ha)
              · intro p hp
                rcases List.mem_cons.mp hp with hph | hp'
                · rw [hph]
                  exact Nat.lt_succ_self _
                · exact Nat.lt_succ_of_lt (h2 p hp')
              · intro c' hcc
                injection hcc with hcc'
                subst hcc'
                refine ⟨by simp, ?_, ?_⟩
                · intro hmem
                  exact absurd (h1 _ hmem) (Nat.lt_irrefl _)
                · intro p hp
                  rcases List.mem_cons.mp hp with hph | hp'
                  · rw [hph]
                  · exact Nat.le_of_lt (h2 p hp')
              · intro p hp
                rcases List.mem_cons.mp hp with hph | hp'
                · rw [hph]
                  exact Or.inr rfl
                · rcases h4 p hp' with hab | hctrl
                  · exact Or.inl hab
                  · rw [hc] at hctrl
                    simp at hctrl
          | some c0 =>
              simp only [hc]
              have hc0iss : c0 ∈ s.issued.map Prod.fst := (h3 c0 hc).1
              obtain ⟨p0, hp0, hp0e⟩ := List.mem_map.mp hc0iss
              have hc0lt : c0 < s.nextId := by
                rw [← hp0e]
                exact h2 p0 hp0
              refine ⟨?_, ?_, ?_, ?_⟩
              · intro a ha
                rcases List.mem_cons.mp ha with hah | ha'
                · rw [hah]
                  exact Nat.lt_succ_of_lt hc0lt
                · exact Nat.lt_succ_of_lt (h1 a ha')
              · intro p hp
                rcases List.mem_cons.mp hp with hph | hp'
                · rw [hph]
                  exact Nat.lt_succ_self _
                · exact Nat.lt_succ_of_lt (h2 p hp')
              · intro c' hcc
                injection hcc with hcc'
                subst hcc'
                refine ⟨by simp, ?_, ?_⟩
                · intro hmem
                  rcases List.mem_cons.mp hmem with hmh | hm'
                  · omega
                  · exact absurd (h1 _ hm') (Nat.lt_irrefl _)
                · intro p hp
                  rcases List.mem_cons.mp hp with hph | hp'
                  · rw [hph]
                  · exact Nat.le_of_lt (h2 p hp')
              · intro p hp
                rcases List.mem_cons.mp hp with hph | hp'
                · rw [hph]
                  exact Or.inr rfl
                · rcases h4 p hp' with hab | hctrl
                  · exact Or.inl (List.mem_cons_of_mem _ hab)
                  · rw [hc] at hctrl
                    injection hctrl with hctrl'
                    rw [← hctrl']
                    exact Or.inl (List.mem_cons_self _ _)
  | respond id resp =>
      simp only [stepEv]
      split
      · split
        · exact ⟨h1, h2, h3, h4⟩
        · exact ⟨h1, h2, h3, h4⟩
      · exact ⟨h1, h2, h3, h4⟩
  | respondError id =>
      simp only [stepEv]
      split
      · split
        · exact ⟨h1, h2, h3, h4⟩
        · exact ⟨h1, h2, h3, h4⟩
      · exact ⟨h1, h2, h3, h4⟩
  | keyEv k => exact ⟨h1, h2, h3, h4⟩
  | clickEv b => exact ⟨h1, h2, h3, h4⟩

theorem inv_runFrom (es : List Event) (s : LoopState) (h : Inv s) : Inv (runFrom s es) := by
  induction es generalizing s with
  | nil => exact h
  | cons e es ih => exact ih (stepEv e s) (inv_stepEv e s h)

theorem inv_run (es : List Event) : Inv (run es) := inv_runFrom es initLoop inv_initLoop


theorem jsOrEmpty_eq (s : Str) : jsOrEmpty s = s := by
  by_cases h : s = [] <;> simp [jsOrEmpty, h]

theorem getD_map_get {α β : Type} (f : α → β) (l : List α) (i : Nat) (h : i < l.length) (d : β) :
    (l.map f).getD i d = f (l.get ⟨i, h⟩) := by
  induction l generalizing i with
  | nil => exact absurd h (Nat.not_lt_zero i)
  | cons a as ih =>
      cases i with
      | zero => rfl
      | succ n => exact ih n (Nat.lt_of_succ_lt_succ h)

/-- C2: for every suggestion string, `escapeHtml` acts character by
character, replacing exactly the five HTML-significant characters by their
entity forms, and decoding the rendered row's markup back to text content
(`unescapeHtml`) recovers the original string. -/
theorem escapingRoundTrip (s : Str) :
    escapeHtml s = (s.map escChar).flatten ∧ unescapeHtml (escapeHtml s) = s := by
  constructor
  · induction s with
    | nil => rfl
    | cons c cs ih => rw [escapeHtml_cons, ih]; simp
  · exact unescape_escape s

/-- C6: a non-`ok` response yields the empty suggestion list, and a
successful response whose body lacks the `books` field also yields the
empty list. -/
theorem failureAbsorption (resp : JsonResponse) :
    (resp.ok = false → fetchSuggestionsResult resp = []) ∧
    (resp.books = none → fetchSuggestionsResult resp = []) := by
  constructor
  · intro h
    simp [fetchSuggestionsResult, h]
  · intro h
    cases hok : resp.ok
    · simp [fetchSuggestionsResult, hok]
    · simp [fetchSuggestionsResult, hok, h]

/-- Witness for C6 at two concrete responses. -/
theorem failureAbsorptionWitness :
    fetchSuggestionsResult { ok := false, books := some [['a']] } = [] ∧
    fetchSuggestionsResult { ok := true, books := none } = [] :=
  ⟨(failureAbsorption { ok := false, books := some [['a']] }).1 rfl,
   (failureAbsorption { ok := true, books := none }).2 rfl⟩

/-- C9: a click outside the `.recommend-form` container clears the
dropdown (empty items, no `show` class, index `-1`) and leaves the input's
value unmodified, whatever the prior selection state. -/
theorem outsideClickDismiss (st : WidgetState) :
    documentClick false st
      = { inputValue := st.inputValue, items := [], showClass := false, activeIndex := -1 } := rfl

/-- Witness for C9 at a concrete open-with-selection state. -/
theorem outsideClickDismissWitness :
    documentClick false { inputValue := ['x'], items := [['a']], showClass := true, activeIndex := 0 }
      = { inputValue := ['x'], items := [], showClass := false, activeIndex := -1 } :=
  outsideClickDismiss { inputValue := ['x'], items := [['a']], showClass := true, activeIndex := 0 }

/-- C10: when either bound element is missing at initialization, the
script installs nothing and is a total no-op. -/
theorem missingElementGuard (inputPresent suggestionsListPresent : Bool)
    (h : inputPresent = false ∨ suggestionsListPresent = false) :
    initWidget inputPresent suggestionsListPresent = none := by
  rcases h with h | h <;> subst h <;> simp [initWidget]

/-- Witness for C10 with the input element absent. -/
theorem missingElementGuardWitness : initWidget false true = none :=
  missingElementGuard false true (Or.inl rfl)

/-- C3 (code-bug evaluation): with 3 items and no selection, ArrowUp in
the code yields index 1, not the claimed `N-1 = 2`; ArrowDown from the
last index wraps to 0 as claimed. -/
theorem keyboardWrapEval :
    (keydown Key.arrowUp
        { inputValue := [], items := [['a'], ['b'], ['c']], showClass := true, activeIndex := -1 }).1.activeIndex = 1
      ∧ (1 : Int) ≠ 2
      ∧ (keydown Key.arrowDown
          { inputValue := [], items := [['a'], ['b'], ['c']], showClass := true, activeIndex := 2 }).1.activeIndex = 0 := by
  refine ⟨by decide, by decide, by decide⟩


/-- C1: a response belonging to a superseded request (one issued before
some other request) is never applied to the UI, and a response belonging
to the live (most recently issued) request is rendered — so the list that
ends up rendered is always the latest request's result. -/
theorem noStaleOverwrite (es : List Event) (id : Nat) (resp : JsonResponse)
    (hsup : ∃ p ∈ (run es).issued, id < p.1) :
    (stepEv (Event.respond id resp) (run es)).widget = (run es).widget ∧
    (∀ c, (run es).controller = some c → c ∉ (run es).resolved →
      (stepEv (Event.respond c resp) (run es)).widget
        = renderSuggestions (fetchSuggestionsResult resp) (run es).widget) := by
  obtain ⟨h1, h2, h3, h4⟩ := inv_run es
  constructor
  · obtain ⟨p, hp, hlt⟩ := hsup
    simp only [stepEv]
    by_cases hcond : id ∈ (run es).issued.map Prod.fst ∧ id ∉ (run es).resolved
    · rw [if_pos hcond]
      obtain ⟨hmem, _⟩ := hcond
      obtain ⟨p', hp', hp'e⟩ := List.mem_map.mp hmem
      rcases h4 p' hp' with hab | hctrl
      · rw [if_pos (hp'e ▸ hab)]
      · exfalso
        have hle := (h3 p'.1 hctrl).2.2 p hp
        omega
    · rw [if_neg hcond]
  · intro c hc hcres
    obtain ⟨hcmem, hcnab, _⟩ := h3 c hc
    simp only [stepEv]
    rw [if_pos ⟨hcmem, hcres⟩, if_neg hcnab]

/-- Witness for C1: request 0 is superseded by request 1; its late
response leaves the widget untouched. -/
theorem noStaleOverwriteWitness :
    (stepEv (Event.respond 0 { ok := true, books := some [['D', 'u', 'n', 'e']] })
        (run [Event.inputEv ['a', 'b'], Event.fireTimer,
              Event.inputEv ['c', 'd'], Event.fireTimer])).widget
      = (run [Event.inputEv ['a', 'b'], Event.fireTimer,
              Event.inputEv ['c', 'd'], Event.fireTimer]).widget :=
  (noStaleOverwrite [Event.inputEv ['a', 'b'], Event.fireTimer,
      Event.inputEv ['c', 'd'], Event.fireTimer] 0
      { ok := true, books := some [['D', 'u', 'n', 'e']] } (by decide)).1

/-- C4 counterexample: a long query schedules a fetch, a short query 180 ms
later clears the dropdown but leaves the timer armed; the timer then fires,
issues the request, and its response repopulates the dropdown — after the
short-query event the dropdown does not stay empty. -/
theorem shortQueryGuardCex :
    (trim ['d']).length < 2 ∧
    run [Event.inputEv ['d', 'u'], Event.inputEv ['d'], Event.fireTimer,
         Event.respond 0 { ok := true, books := some [['D', 'u', 'n', 'e']] }]
      = { widget := { inputValue := ['d'], items := [['D', 'u', 'n', 'e']],
                      showClass := true, activeIndex := -1 },
          timer := none, controller := some 0, aborted := [],
          issued := [(0, ['d', 'u'])], resolved := [0], nextId := 1 } := by
  refine ⟨by decide, by decide⟩

/-- C4 (amended): an input event with a short trimmed query immediately
clears the suggestions and issues no request, but the previously armed
debounce timer is left untouched and may still fire later. -/
theorem shortQueryGuardAmended (s : LoopState) (v : Str) (h : (trim v).length < 2) :
    stepEv (Event.inputEv v) s
      = { s with widget := { inputValue := v, items := [], showClass := false, activeIndex := -1 } } := by
  simp only [stepEv]
  rw [if_pos h]
  rfl

/-- Witness for C4 (amended) at a concrete short query. -/
theorem shortQueryGuardAmendedWitness :
    stepEv (Event.inputEv ['d']) initLoop
      = { initLoop with
          widget := { inputValue := ['d'], items := [], showClass := false, activeIndex := -1 } } :=
  shortQueryGuardAmended initLoop ['d'] (by decide)

/-- C5: a burst of long-query input events processed back to back issues
no request, ends with the timer armed for the last query of the burst,
and the single timer fire then issues exactly one request, for that last
query (trailing edge only). -/
theorem debounceCoalescing (s : LoopState) (qs : List Str) (qlast : Str)
    (hall : ∀ x ∈ qs ++ [qlast], 2 ≤ (trim x).length) :
    (runFrom s ((qs ++ [qlast]).map Event.inputEv)).issued = s.issued ∧
    (runFrom s ((qs ++ [qlast]).map Event.inputEv)).nextId = s.nextId ∧
    (runFrom s ((qs ++ [qlast]).map Event.inputEv)).timer = some (trim qlast) ∧
    (stepEv Event.fireTimer (runFrom s ((qs ++ [qlast]).map Event.inputEv))).issued
      = (s.nextId, trim qlast) :: s.issued := by
  induction qs generalizing s with
  | nil =>
      have hq : 2 ≤ (trim qlast).length := hall qlast (by simp)
      have hstep : stepEv (Event.inputEv qlast) s
          = { s with widget := { s.widget with inputValue := qlast }, timer := some (trim qlast) } := by
        simp only [stepEv]
        rw [if_neg (by omega)]
      simp only [List.nil_append, List.map, runFrom]
      rw [hstep]
      exact ⟨rfl, rfl, rfl, rfl⟩
  | cons q0 rest ih =>
      have hq0 : 2 ≤ (trim q0).length := hall q0 (by simp)
      have hstep : stepEv (Event.inputEv q0) s
          = { s with widget := { s.widget with inputValue := q0 }, timer := some (trim q0) } := by
        simp only [stepEv]
        rw [if_neg (by omega)]
      have hall' : ∀ x ∈ rest ++ [qlast], 2 ≤ (trim x).length := by
        intro x hx
        refine hall x ?_
        simp only [List.cons_append, List.mem_cons]
        exact Or.inr hx
      simp only [List.cons_append, List.map, runFrom]
      rw [hstep]
      exact ih { s with widget := { s.widget with inputValue := q0 }, timer := some (trim q0) } hall'

/-- Witness for C5: a two-keystroke burst issues exactly one request, for
the last query. -/
theorem debounceCoalescingWitness :
    (runFrom initLoop (([['a', 'b']] ++ [['c', 'd']]).map Event.inputEv)).issued = initLoop.issued ∧
    (runFrom initLoop (([['a', 'b']] ++ [['c', 'd']]).map Event.inputEv)).nextId = initLoop.nextId ∧
    (runFrom initLoop (([['a', 'b']] ++ [['c', 'd']]).map Event.inputEv)).timer = some (trim ['c', 'd']) ∧
    (stepEv Event.fireTimer (runFrom initLoop (([['a', 'b']] ++ [['c', 'd']]).map Event.inputEv))).issued
      = (initLoop.nextId, trim ['c', 'd']) :: initLoop.issued :=
  debounceCoalescing initLoop [['a', 'b']] ['c', 'd'] (by decide)


/-- C7: with the dropdown rendered from `books`, Enter while `Selected(i)`
copies the i-th book into the input and closes the dropdown (with
`preventDefault`); Enter while `NoSelection` changes nothing and does not
intercept the key. -/
theorem enterCommit (books : List Str) (st : WidgetState) (i : Nat)
    (hitems : st.items = books.map escapeHtml) (hi : i < books.length) :
    (st.activeIndex = (i : Int) →
      keydown Key.enter st
        = ({ inputValue := books.get ⟨i, hi⟩, items := [], showClass := false, activeIndex := -1 }, true)) ∧
    (st.activeIndex = -1 → keydown Key.enter st = (st, false)) := by
  have hlen : st.items.length = books.length := by
    rw [hitems]
    simp
  have hne : ¬ st.items.length = 0 := by omega
  constructor
  · intro hidx
    have hpos : (0 : Int) ≤ st.activeIndex := by rw [hidx]; exact Int.ofNat_nonneg i
    have htonat : st.activeIndex.toNat = i := by rw [hidx]; exact Int.toNat_natCast i
    have htext : jsOrEmpty (textContent (st.items.getD st.activeIndex.toNat []))
        = books.get ⟨i, hi⟩ := by
      rw [htonat, hitems, getD_map_get escapeHtml books i hi]
      rw [textContent, unescape_escape, jsOrEmpty_eq]
    simp only [keydown]
    rw [if_neg hne, if_pos hpos, htext]
    rfl
  · intro hidx
    have hneg : ¬ (0 : Int) ≤ st.activeIndex := by rw [hidx]; decide
    simp only [keydown]
    rw [if_neg hne, if_neg hneg]

/-- Witness for C7: committing index 1 of a two-item dropdown. -/
theorem enterCommitWitness :
    keydown Key.enter
        { inputValue := [], items := [['D', 'u', 'n', 'e'], ['D', 'M']].map escapeHtml,
          showClass := true, activeIndex := 1 }
      = ({ inputValue := ['D', 'M'], items := [], showClass := false, activeIndex := -1 }, true) :=
  (enterCommit [['D', 'u', 'n', 'e'], ['D', 'M']]
      { inputValue := [], items := [['D', 'u', 'n', 'e'], ['D', 'M']].map escapeHtml,
        showClass := true, activeIndex := 1 } 1 rfl (by decide)).1 rfl

/-- C8 counterexample: Enter on an open, non-empty dropdown with no
selection does not call `preventDefault` (and changes nothing), refuting
the claimed "if and only if the dropdown is open and non-empty". -/
theorem defaultSuppressionCex :
    ([['a']] : List Str) ≠ [] ∧
    keydown Key.enter { inputValue := [], items := [['a']], showClass := true, activeIndex := -1 }
      = ({ inputValue := [], items := [['a']], showClass := true, activeIndex := -1 }, false) := by
  refine ⟨by decide, by decide⟩

/-- C8 (amended): ArrowDown and ArrowUp call `preventDefault` iff the
dropdown is non-empty; Enter calls it iff the dropdown is non-empty and a
selection is active; with an empty dropdown no key is intercepted. -/
theorem defaultSuppressionAmended (st : WidgetState) :
    ((keydown Key.arrowDown st).2 = true ↔ st.items ≠ []) ∧
    ((keydown Key.arrowUp st).2 = true ↔ st.items ≠ []) ∧
    ((keydown Key.enter st).2 = true ↔ (st.items ≠ [] ∧ 0 ≤ st.activeIndex)) := by
  by_cases h : st.items.length = 0
  · have he : st.items = [] := List.length_eq_zero.mp h
    simp [keydown, h, he]
  · have hne : st.items ≠ [] := by
      intro he
      rw [he] at h
      exact h rfl
    by_cases hidx : (0 : Int) ≤ st.activeIndex
    · simp [keydown, h, hne, hidx]
    · simp [keydown, h, hne, hidx]

/-- Witness for C8 (amended) at a concrete non-empty state. -/
theorem defaultSuppressionAmendedWitness :
    ((keydown Key.arrowDown { inputValue := [], items := [['a']], showClass := true, activeIndex := -1 }).2 = true
        ↔ ([['a']] : List Str) ≠ []) ∧
    ((keydown Key.arrowUp { inputValue := [], items := [['a']], showClass := true, activeIndex := -1 }).2 = true
        ↔ ([['a']] : List Str) ≠ []) ∧
    ((keydown Key.enter { inputValue := [], items := [['a']], showClass := true, activeIndex := -1 }).2 = true
        ↔ (([['a']] : List Str) ≠ [] ∧ (0 : Int) ≤ -1)) :=
  defaultSuppressionAmended { inputValue := [], items := [['a']], showClass := true, activeIndex := -1 }

end BookRec
